import Mathlib

/-!
Verification development for the hexagonal cellular-growth simulation core
(hexSimulation.py).  The simulation state, lifecycle operations
(create_cell, destroy_cell, divide_cell), the two-phase step engine
(create_all_outputs / handle_all_outputs / super_step) and the
termination-and-fitness loop (run) are embedded as executable Lean
definitions, translated line by line from the Python source.

Python exceptions (assertion failures, list.remove on a missing element,
attribute access on a missing object) are modelled by Option: a returned
none means the operation raised.  The abstract collaborator hooks of the
core (the concrete-simulation methods create_input, handle_output, step and
fitness, and the per-module simulation objects) are external to the core;
they are modelled as function-valued parameters, with state mutation
performed by the hooks expressed as a list of lifecycle actions that the
core then executes, so that every mutation factors through the lifecycle
manager exactly as the specification demands.

The classes Cell and hexmap.Map are code of the repository that is not in
the provided sources; the definitions below that stand for them carry a
doc comment starting with the words Modelled from the spec.
-/

namespace HexSim

/-- Grid coordinates, a pair of integers (Python tuples; the neighbor
computation can step outside the bounds, hence Int not Nat). -/
abbrev Coord := Int × Int

/-- Modelled from the spec: the Cell object of cell.py (not in the provided
sources).  A cell stores its current grid coordinate (userData coords), a
write-once alive flag, and module-owned auxiliary per-cell data.  The cell
id is the key into the simulation's cell store, and the shared decision
function lives on the genome. -/
structure CellRec where
  coords : Coord
  alive : Bool
  aux : List Int
deriving DecidableEq

/-- The mutable state of one HexSimulation instance: grid occupancy
(hmap), the live-cell list (cells, by id), the heap of all cell objects
ever created (cellData, so that a reference to a destroyed cell still
reads the mutated object, as in Python), and the counters. -/
structure SimState where
  bounds : Nat × Nat
  grid : Coord → Option Nat
  cells : List Nat
  cellData : Nat → Option CellRec
  next_cell_id : Nat
  last_change : Nat
  step_count : Nat
  created_cells : Nat
  destroyed_cells : Nat

/-- A lifecycle mutation requested by an abstract hook.  Hooks mutate the
simulation only through the lifecycle manager (spec section 4.3); a hook
returns the list of lifecycle calls it performs. -/
inductive Action where
  | create (coords : Coord)
  | destroy (cid : Nat)
  | divide (cid : Nat) (direction : Nat)

/-- Behavior of one module simulation instance (external collaborator,
spec section 4.3): per-cell input collection, per-cell output application,
cell created and destroyed hooks acting on the module-owned per-cell data,
and the per-tick step hook. -/
structure ModuleBeh where
  create_input : SimState → Nat → List Int
  handle_output : SimState → Nat → List Int → List Action
  cell_init : List Int → List Int
  cell_destroy : List Int → List Int
  step : SimState → List Action

/-- One module descriptor of the genome: the declared input and output
slice widths (the lengths of total_inputs() and total_outputs()) and the
optional simulation class. -/
structure ModuleDecl where
  numInputs : Nat
  numOutputs : Nat
  simulation : Option ModuleBeh

/-- The genome collaborator: declared vector sizes, the ordered module
list, the optional target fitness (genome.fitness in Python, where the
value 0 and the value None are both falsy), and the decision function
(cell.outputs delegates to the genome shared by all cells; the spec
requires it to be a total, side-effect-free function of its input). -/
structure Genome where
  non_module_inputs : Nat
  non_module_outputs : Nat
  num_inputs : Nat
  num_outputs : Nat
  modules : List ModuleDecl
  fitness : Option Int
  think : List Int → List Int

/-- A simulation configuration: the genome plus the abstract
concrete-simulation hooks (create_input, handle_output, the per-tick step
hook, and fitness) and the constructor flags. -/
structure SimConfig where
  genome : Genome
  max_steps : Nat
  break_on_repeat : Bool
  create_input : SimState → Nat → List Int
  handle_output : SimState → Nat → List Int → List Action
  step : SimState → List Action
  fitness : SimState → Int

/-- Modelled from the spec: Map.valid_coords of hexmap.py (not in the
provided sources) checks that a coordinate lies inside the width times
height bounds. -/
def valid_coords (bounds : Nat × Nat) (c : Coord) : Bool :=
  0 ≤ c.1 && c.1 < (bounds.1 : Int) && 0 ≤ c.2 && c.2 < (bounds.2 : Int)

/-- Modelled from the spec: Map.neighbor of hexmap.py (not in the provided
sources) maps a coordinate and one of the six hexagonal directions 0 to 5
to the adjacent coordinate, by a fixed delta table (axial convention; the
original table is unknown, and no claim depends on the particular deltas).
A direction outside 0 to 5 is mapped to the coordinate itself. -/
def neighbor (c : Coord) (direction : Nat) : Coord :=
  match direction with
  | 0 => (c.1 + 1, c.2)
  | 1 => (c.1, c.2 + 1)
  | 2 => (c.1 - 1, c.2 + 1)
  | 3 => (c.1 - 1, c.2)
  | 4 => (c.1, c.2 - 1)
  | 5 => (c.1 + 1, c.2 - 1)
  | _ => c

/-- All coordinates of the bounded grid, row by row. -/
def allCoords (bounds : Nat × Nat) : List Coord :=
  ((List.range bounds.1) ×ˢ (List.range bounds.2)).map
    (fun p => ((p.1 : Int), (p.2 : Int)))

/-- The number of occupied grid coordinates. -/
def occCount (s : SimState) : Nat :=
  (allCoords s.bounds).countP (fun c => (s.grid c).isSome)

/-- Modelled from the spec: Map.hash of hexmap.py (not in the provided
sources) fingerprints the grid as a pure function of occupancy content
only, independent of history and of cell identity. -/
def gridHash (s : SimState) : List Bool :=
  (allCoords s.bounds).map (fun c => (s.grid c).isSome)

/-- The state built by the HexSimulation constructor: empty grid, no
cells, all counters zero. -/
def initState (bounds : Nat × Nat) : SimState where
  bounds := bounds
  grid := fun _ => none
  cells := []
  cellData := fun _ => none
  next_cell_id := 0
  last_change := 0
  step_count := 0
  created_cells := 0
  destroyed_cells := 0

/-- Reading the alive flag of a cell object (cell.alive in Python); a cell
id with no record stands for an object that was never created. -/
def aliveIn (s : SimState) (cid : Nat) : Bool :=
  match s.cellData cid with
  | some r => r.alive
  | none => false

/-- The module simulation instances, in module order: one per module whose
simulation attribute is set (HexSimulation._init_module_simulations). -/
def module_simulations (g : Genome) : List (ModuleDecl × ModuleBeh) :=
  g.modules.filterMap (fun m => m.simulation.map (fun b => (m, b)))

/-- The cell_init loop of HexSimulation.cell_init: every module simulation
initializes its per-cell data, in module order. -/
def applyCellInit (sims : List (ModuleDecl × ModuleBeh)) (aux : List Int) : List Int :=
  match sims with
  | [] => aux
  | (_, b) :: rest => applyCellInit rest (b.cell_init aux)

/-- The cell_destroy loop of HexSimulation.destroy_cell: every module
simulation releases its per-cell data, in module order. -/
def applyCellDestroy (sims : List (ModuleDecl × ModuleBeh)) (aux : List Int) : List Int :=
  match sims with
  | [] => aux
  | (_, b) :: rest => applyCellDestroy rest (b.cell_destroy aux)

/-- Python list.remove: drop the first occurrence of x (the caller checks
membership; on a missing element Python raises, see destroy_cell). -/
def removeFirst (l : List Nat) (x : Nat) : List Nat :=
  match l with
  | [] => []
  | y :: ys => if y = x then ys else y :: removeFirst ys x

/-- HexSimulation.create_cell: assert the coordinate is in bounds and
empty (a failed assert raises, modelled as none), then obtain a fresh id
(next_cell_id is pre-incremented, so the first cell gets id 1), record the
change step, store the coordinate on the cell, place it in the grid,
append it to the live list, bump created_cells and run the module
cell-created hooks in order. -/
def create_cell (cfg : SimConfig) (s : SimState) (coords : Coord) : Option SimState :=
  if valid_coords s.bounds coords && !(s.grid coords).isSome then
    some { s with
      next_cell_id := s.next_cell_id + 1,
      last_change := s.step_count,
      grid := fun c => if c = coords then some (s.next_cell_id + 1) else s.grid c,
      cells := s.cells ++ [s.next_cell_id + 1],
      cellData := fun i =>
        if i = s.next_cell_id + 1 then
          some { coords := coords, alive := true,
                 aux := applyCellInit (module_simulations cfg.genome) [] }
        else s.cellData i,
      created_cells := s.created_cells + 1 }
  else none

/-- HexSimulation.destroy_cell: record the change step, run the module
cell-destroyed hooks in order, remove the cell from the live list
(list.remove raises if absent, modelled as none, as does a cell object
that does not exist), clear its grid slot at the coordinate stored on the
cell, bump destroyed_cells and mark the object dead. -/
def destroy_cell (cfg : SimConfig) (s : SimState) (cid : Nat) : Option SimState :=
  match s.cellData cid with
  | none => none
  | some r =>
    if cid ∈ s.cells then
      some { s with
        last_change := s.step_count,
        cells := removeFirst s.cells cid,
        grid := fun c => if c = r.coords then none else s.grid c,
        cellData := fun i =>
          if i = cid then
            some { coords := r.coords, alive := false,
                   aux := applyCellDestroy (module_simulations cfg.genome) r.aux }
          else s.cellData i,
        destroyed_cells := s.destroyed_cells + 1 }
    else none

/-- HexSimulation.divide_cell: compute the neighbor coordinate of the
cell in the given direction; if it is in bounds and empty, create a new
cell there, otherwise do nothing (a silent no-op). -/
def divide_cell (cfg : SimConfig) (s : SimState) (cid : Nat) (direction : Nat) :
    Option SimState :=
  match s.cellData cid with
  | none => none
  | some r =>
    let coords := neighbor r.coords direction
    if valid_coords s.bounds coords && !(s.grid coords).isSome then
      create_cell cfg s coords
    else some s

/-- Run one lifecycle call requested by a hook. -/
def execAction (cfg : SimConfig) (s : SimState) : Action → Option SimState
  | .create coords => create_cell cfg s coords
  | .destroy cid => destroy_cell cfg s cid
  | .divide cid direction => divide_cell cfg s cid direction

/-- Run the lifecycle calls of one hook invocation in order; an exception
in any of them propagates. -/
def execActions (cfg : SimConfig) (acts : List Action) (s : SimState) : Option SimState :=
  match acts with
  | [] => some s
  | a :: rest =>
    match execAction cfg s a with
    | none => none
    | some s1 => execActions cfg rest s1

/-- The module-input loop of HexSimulation.create_all_outputs: extend the
accumulated input vector with each module simulation's inputs, in module
order, asserting each contribution has the declared width. -/
def collectModuleInputs (sims : List (ModuleDecl × ModuleBeh)) (s : SimState) (cid : Nat)
    (acc : List Int) : Option (List Int) :=
  match sims with
  | [] => some acc
  | (m, beh) :: rest =>
    let mod_input := beh.create_input s cid
    if mod_input.length = m.numInputs then
      collectModuleInputs rest s cid (acc ++ mod_input)
    else none

/-- The per-cell body of HexSimulation.create_all_outputs: the base input
vector (asserted of length non_module_inputs), extended in module order
with each module's inputs, asserted to reach the genome-declared total,
then passed through the decision function, whose result is asserted to
have the genome-declared output length. -/
def collectOne (cfg : SimConfig) (s : SimState) (cid : Nat) : Option (List Int) :=
  let base := cfg.create_input s cid
  if base.length = cfg.genome.non_module_inputs then
    match collectModuleInputs (module_simulations cfg.genome) s cid base with
    | none => none
    | some inputs =>
      if inputs.length = cfg.genome.num_inputs then
        let outs := cfg.genome.think inputs
        if outs.length = cfg.genome.num_outputs then some outs else none
      else none
  else none

/-- The cell loop of HexSimulation.create_all_outputs over a given list of
cells. -/
def collectAll (cfg : SimConfig) (s : SimState) (cids : List Nat) :
    Option (List (List Int)) :=
  match cids with
  | [] => some []
  | cid :: rest =>
    match collectOne cfg s cid with
    | none => none
    | some out =>
      match collectAll cfg s rest with
      | none => none
      | some outs => some (out :: outs)

/-- HexSimulation.create_all_outputs: collect all inputs and compute all
output vectors over the current live-cell list, before anything is
applied; the state is not mutated. -/
def create_all_outputs (cfg : SimConfig) (s : SimState) : Option (List (List Int)) :=
  collectAll cfg s s.cells

/-- The module-output loop of HexSimulation.handle_all_outputs: walk
zip(genome.modules, module_simulations) with the running slice index i,
hand each module simulation its slice outputs[i : i + k] (asserted of
width k, the declared output count of the zipped module), and stop as soon
as the cell object is no longer alive. -/
def handleModules (cfg : SimConfig)
    (pairs : List (ModuleDecl × (ModuleDecl × ModuleBeh))) (i : Nat)
    (s : SimState) (cid : Nat) (outputs : List Int) : Option SimState :=
  match pairs with
  | [] => some s
  | (module, sim) :: rest =>
    let k := module.numOutputs
    let module_output := (outputs.drop i).take k
    if module_output.length = k then
      match execActions cfg (sim.2.handle_output s cid module_output) s with
      | none => none
      | some s1 =>
        if aliveIn s1 cid then handleModules cfg rest (i + k) s1 cid outputs
        else some s1
    else none

/-- The per-pair body of HexSimulation.handle_all_outputs: the concrete
simulation handles the non-module slice outputs[:non_module_outputs]; if
the cell object is then no longer alive the remaining module slices are
skipped (continue), otherwise the module loop runs starting at index
non_module_outputs. -/
def handleCell (cfg : SimConfig) (s : SimState) (cid : Nat) (outputs : List Int) :
    Option SimState :=
  match execActions cfg
      (cfg.handle_output s cid (outputs.take cfg.genome.non_module_outputs)) s with
  | none => none
  | some s1 =>
    if aliveIn s1 cid then
      handleModules cfg (cfg.genome.modules.zip (module_simulations cfg.genome))
        cfg.genome.non_module_outputs s1 cid outputs
    else some s1

/-- The pair loop of HexSimulation.handle_all_outputs, over the snapshot
list of (cell, outputs) pairs taken at entry. -/
def handlePairs (cfg : SimConfig) (pairs : List (Nat × List Int)) (s : SimState) :
    Option SimState :=
  match pairs with
  | [] => some s
  | (cid, outs) :: rest =>
    match handleCell cfg s cid outs with
    | none => none
    | some s1 => handlePairs cfg rest s1

/-- HexSimulation.handle_all_outputs: iterate over a list copy of
zip(self.cells, all_outputs) made before any output is applied (self.cells
may change during the iteration; the snapshot does not). -/
def handle_all_outputs (cfg : SimConfig) (s : SimState) (all_outputs : List (List Int)) :
    Option SimState :=
  handlePairs cfg (s.cells.zip all_outputs) s

/-- The first two statements of HexSimulation.super_step: reset the
per-step created and destroyed counters. -/
def resetCounters (s : SimState) : SimState :=
  { s with created_cells := 0, destroyed_cells := 0 }

/-- The module step loop at the end of HexSimulation.super_step: each
module simulation's step hook runs in module order. -/
def runModuleSteps (cfg : SimConfig) (sims : List (ModuleDecl × ModuleBeh))
    (s : SimState) : Option SimState :=
  match sims with
  | [] => some s
  | (_, beh) :: rest =>
    match execActions cfg (beh.step s) s with
    | none => none
    | some s1 => runModuleSteps cfg rest s1

/-- HexSimulation.super_step, one tick: reset the per-step counters,
collect and compute every output vector (Collect phase), apply all stored
(cell, outputs) pairs (Apply phase), run the concrete simulation step
hook, run every module step hook in order, and increment the step
counter. -/
def super_step (cfg : SimConfig) (s : SimState) : Option SimState :=
  let s0 := resetCounters s
  match create_all_outputs cfg s0 with
  | none => none
  | some all_outputs =>
    match handle_all_outputs cfg s0 all_outputs with
    | none => none
    | some s1 =>
      match execActions cfg (cfg.step s1) s1 with
      | none => none
      | some s2 =>
        match runModuleSteps cfg (module_simulations cfg.genome) s2 with
        | none => none
        | some s3 => some { s3 with step_count := s3.step_count + 1 }

/-- Everything HexSimulation.super_step does after the Collect phase,
given the pre-tick snapshot state and the stored output vectors: the Apply
phase, the end-of-tick hooks, and the step-counter increment. -/
def applyPhase (cfg : SimConfig) (s0 : SimState) (all_outputs : List (List Int)) :
    Option SimState :=
  match handle_all_outputs cfg s0 all_outputs with
  | none => none
  | some s1 =>
    match execActions cfg (cfg.step s1) s1 with
    | none => none
    | some s2 =>
      match runModuleSteps cfg (module_simulations cfg.genome) s2 with
      | none => none
      | some s3 => some { s3 with step_count := s3.step_count + 1 }

/-- The tick order asserted by the specification text of claim C5 (module
step hooks before the concrete-simulation step hook), stated as a
definition so it can be compared with the order the code actually uses;
everything else is as in super_step. -/
def super_step_claim_order (cfg : SimConfig) (s : SimState) : Option SimState :=
  let s0 := resetCounters s
  match create_all_outputs cfg s0 with
  | none => none
  | some all_outputs =>
    match handle_all_outputs cfg s0 all_outputs with
    | none => none
    | some s1 =>
      match runModuleSteps cfg (module_simulations cfg.genome) s1 with
      | none => none
      | some s2 =>
        match execActions cfg (cfg.step s2) s2 with
        | none => none
        | some s3 => some { s3 with step_count := s3.step_count + 1 }

/-- The branch by which HexSimulation.run returned (the terminal reasons
of the specification state machine; the Python code has one return
statement per reason). -/
inductive StopReason where
  | targetReached
  | inactivity
  | stateRepeat
  | maxSteps
deriving DecidableEq

/-- What HexSimulation.run produces: the returned fitness value, together
with the return branch taken and the state at exit (both directly
observable in the Python control flow, recorded here so that theorems can
speak about them). -/
structure RunResult where
  fitness : Int
  reason : StopReason
  final : SimState

/-- The condition of the first return of HexSimulation.run: genome.fitness
is truthy (not None and not 0) and the running maximum equals it. -/
def targetHit (g : Genome) (v : Int) : Bool :=
  match g.fitness with
  | none => false
  | some t => if t = 0 then false else v == t

/-- The loop of HexSimulation.run: at most fuel more ticks; after each
tick update the running maximum with the current fitness, then return on
target fitness, then on inactivity (more than 5 steps without a structural
change), then, when break_on_repeat is set, on a repeated grid hash
(returning the current fitness, not the running maximum), recording
unseen hashes.  When the fuel is exhausted the loop falls through and
returns the running maximum.  The seen-hash set lives in the run loop
(Python keeps it on self, and only run touches it). -/
def runAux (cfg : SimConfig) (fuel : Nat) (s : SimState) (maxFit : Int)
    (seen : List (List Bool)) : Option RunResult :=
  match fuel with
  | 0 => some ⟨maxFit, .maxSteps, s⟩
  | Nat.succ fuel1 =>
    match super_step cfg s with
    | none => none
    | some s1 =>
      let maxFit1 := max maxFit (cfg.fitness s1)
      if targetHit cfg.genome maxFit1 then some ⟨maxFit1, .targetReached, s1⟩
      else if 5 < s1.step_count - s1.last_change then some ⟨maxFit1, .inactivity, s1⟩
      else if cfg.break_on_repeat then
        if gridHash s1 ∈ seen then some ⟨cfg.fitness s1, .stateRepeat, s1⟩
        else runAux cfg fuel1 s1 maxFit1 (gridHash s1 :: seen)
      else runAux cfg fuel1 s1 maxFit1 seen

/-- HexSimulation.run (without a renderer, whose callback does not touch
the state): the running maximum starts at 0 and the loop runs at most
max_steps ticks. -/
def run (cfg : SimConfig) (s : SimState) : Option RunResult :=
  runAux cfg cfg.max_steps s 0 []

/-- The fitness values a run would observe: the current fitness after each
of the next n completed ticks. -/
def fitsAfter (cfg : SimConfig) (s : SimState) : Nat → Option (List Int)
  | 0 => some []
  | Nat.succ n =>
    match super_step cfg s with
    | none => none
    | some s1 =>
      match fitsAfter cfg s1 n with
      | none => none
      | some l => some (cfg.fitness s1 :: l)

/-- The state reached after n completed ticks from s. -/
def tickStates (cfg : SimConfig) (s : SimState) : Nat → Option SimState
  | 0 => some s
  | Nat.succ n =>
    match super_step cfg s with
    | none => none
    | some s1 => tickStates cfg s1 n

/-! Helper lemmas about lists and the coordinate enumeration. -/

lemma removeFirst_sublist (l : List Nat) (x : Nat) : (removeFirst l x).Sublist l := by
  induction l with
  | nil => simp [removeFirst]
  | cons y ys ih =>
    unfold removeFirst
    by_cases h : y = x
    · simp [h]
    · simpa [h] using ih.cons₂ y

lemma length_removeFirst (l : List Nat) (x : Nat) (hx : x ∈ l) :
    (removeFirst l x).length + 1 = l.length := by
  induction l with
  | nil => cases hx
  | cons y ys ih =>
    unfold removeFirst
    by_cases h : y = x
    · simp [h]
    · have hx2 : x ∈ ys := by
        cases hx with
        | head => exact absurd rfl h
        | tail _ h2 => exact h2
      simp only [h, if_false, List.length_cons]
      rw [← ih hx2]

lemma mem_removeFirst (l : List Nat) (x y : Nat) (hl : l.Nodup) :
    y ∈ removeFirst l x ↔ y ∈ l ∧ y ≠ x := by
  induction l with
  | nil => simp [removeFirst]
  | cons z zs ih =>
    have hl2 : zs.Nodup := hl.of_cons
    have hz : z ∉ zs := (List.nodup_cons.mp hl).1
    unfold removeFirst
    by_cases h : z = x
    · subst h
      simp only [if_true, List.mem_cons]
      constructor
      · intro hy
        exact ⟨Or.inr hy, fun he => hz (he ▸ hy)⟩
      · rintro ⟨hy | hy, hne⟩
        · exact absurd hy hne
        · exact hy
    · simp only [h, if_false, List.mem_cons, ih hl2]
      constructor
      · rintro (rfl | ⟨hy, hne⟩)
        · exact ⟨Or.inl rfl, fun he => h (he ▸ rfl)⟩
        · exact ⟨Or.inr hy, hne⟩
      · rintro ⟨rfl | hy, hne⟩
        · exact Or.inl rfl
        · exact Or.inr ⟨hy, hne⟩

lemma removeFirst_append_singleton (l : List Nat) (x : Nat) (hx : x ∉ l) :
    removeFirst (l ++ [x]) x = l := by
  induction l with
  | nil => simp [removeFirst]
  | cons y ys ih =>
    have hy : y ≠ x := fun h => hx (h ▸ List.mem_cons_self y ys)
    have hx2 : x ∉ ys := fun h => hx (List.mem_cons_of_mem y h)
    simp only [List.cons_append]
    unfold removeFirst
    simp [hy, ih hx2]

lemma countP_update (l : List Coord) (f g : Coord → Bool) (c0 : Coord)
    (hl : l.Nodup) (hc : c0 ∈ l) (hsame : ∀ c, c ≠ c0 → f c = g c) :
    l.countP f + (if g c0 then 1 else 0) = l.countP g + (if f c0 then 1 else 0) := by
  induction l with
  | nil => cases hc
  | cons y ys ih =>
    have hl2 : ys.Nodup := hl.of_cons
    have hy : y ∉ ys := (List.nodup_cons.mp hl).1
    by_cases h : y = c0
    · subst h
      have heq : ys.countP f = ys.countP g :=
        List.countP_congr (fun c hcy => by
          rw [hsame c (fun he => hy (he ▸ hcy))])
      simp only [List.countP_cons, heq]
      by_cases hf : f y <;> by_cases hg : g y <;> simp [hf, hg]
    · have hc2 : c0 ∈ ys := by
        cases hc with
        | head => exact absurd rfl h
        | tail _ h2 => exact h2
      have hfy : f y = g y := hsame y h
      simp only [List.countP_cons, hfy]
      have := ih hl2 hc2
      by_cases hg : g y <;> simp [hg] <;> omega

lemma mem_allCoords (b : Nat × Nat) (c : Coord) :
    c ∈ allCoords b ↔ valid_coords b c = true := by
  constructor
  · intro hmem
    rcases List.mem_map.mp hmem with ⟨p, hp, hpe⟩
    obtain ⟨px, py⟩ := p
    obtain ⟨hx, hy⟩ := List.pair_mem_product.mp hp
    rw [List.mem_range] at hx hy
    subst hpe
    unfold valid_coords
    simp only [Bool.and_eq_true, decide_eq_true_eq]
    refine ⟨⟨⟨?_, ?_⟩, ?_⟩, ?_⟩ <;> omega
  · intro hv
    unfold valid_coords at hv
    simp only [Bool.and_eq_true, decide_eq_true_eq] at hv
    obtain ⟨⟨⟨h1, h2⟩, h3⟩, h4⟩ := hv
    apply List.mem_map.mpr
    refine ⟨(c.1.toNat, c.2.toNat), ?_, ?_⟩
    · apply List.pair_mem_product.mpr
      rw [List.mem_range, List.mem_range]
      exact ⟨by omega, by omega⟩
    · have e1 : (c.1.toNat : Int) = c.1 := Int.toNat_of_nonneg h1
      have e2 : (c.2.toNat : Int) = c.2 := Int.toNat_of_nonneg h3
      dsimp only
      rw [e1, e2]

lemma nodup_allCoords (b : Nat × Nat) : (allCoords b).Nodup := by
  unfold allCoords
  refine List.Nodup.map ?_ (List.Nodup.product (List.nodup_range _) (List.nodup_range _))
  intro p q h
  obtain ⟨p1, p2⟩ := p
  obtain ⟨q1, q2⟩ := q
  have h1 := congrArg Prod.fst h
  have h2 := congrArg Prod.snd h
  simp only at h1 h2
  have e1 : p1 = q1 := by exact_mod_cast h1
  have e2 : p2 = q2 := by exact_mod_cast h2
  rw [e1, e2]

lemma le_foldl_max (l : List Int) (m : Int) : m ≤ l.foldl max m := by
  induction l generalizing m with
  | nil => simp
  | cons x xs ih => exact le_trans (le_max_left m x) (ih (max m x))

/-! The registry and grid consistency invariant, and its preservation by
every lifecycle operation and by a whole tick. -/

/-- Consistency of the spatial index with the cell registry: the occupied
coordinate count equals the live-list length; a coordinate holds a cell id
exactly when that cell object exists, stores this coordinate and is alive;
the live list holds exactly the ids of the alive objects, without
duplicates; alive objects sit at in-bounds coordinates; and every existing
object id is at most the id counter (so the next id is fresh). -/
structure Inv (s : SimState) : Prop where
  count_eq : occCount s = s.cells.length
  grid_iff : ∀ c cid, s.grid c = some cid ↔
    ∃ r, s.cellData cid = some r ∧ r.coords = c ∧ r.alive = true
  mem_alive : ∀ cid, cid ∈ s.cells ↔ ∃ r, s.cellData cid = some r ∧ r.alive = true
  nodup : s.cells.Nodup
  valid_live : ∀ cid r, s.cellData cid = some r → r.alive = true →
    valid_coords s.bounds r.coords = true
  id_bound : ∀ cid r, s.cellData cid = some r → cid ≤ s.next_cell_id

lemma Inv_initState (b : Nat × Nat) : Inv (initState b) := by
  constructor
  · simp only [occCount, initState]
    rw [List.countP_eq_zero.mpr]
    · rfl
    · intro c _
      simp
  · intro c cid
    simp [initState]
  · intro cid
    simp [initState]
  · simp [initState]
  · intro cid r h
    simp only [initState] at h
    cases h
  · intro cid r h
    simp only [initState] at h
    cases h

lemma Inv_create (cfg : SimConfig) (s : SimState) (coords : Coord) (s2 : SimState)
    (h : create_cell cfg s coords = some s2) (hs : Inv s) : Inv s2 := by
  unfold create_cell at h
  split at h
  swap
  · cases h
  rename_i hcond
  have hcond2 : valid_coords s.bounds coords = true ∧ (s.grid coords).isSome = false := by
    simpa using hcond
  obtain ⟨hvalid, hemp⟩ := hcond2
  have hnone : s.grid coords = none := by
    cases hg : s.grid coords with
    | none => rfl
    | some k =>
      rw [hg] at hemp
      simp at hemp
  have hfresh : s.cellData (s.next_cell_id + 1) = none := by
    cases hcd : s.cellData (s.next_cell_id + 1) with
    | none => rfl
    | some r =>
      have := hs.id_bound _ r hcd
      omega
  have hnotmem : s.next_cell_id + 1 ∉ s.cells := by
    intro hmem
    obtain ⟨r, hr, _⟩ := (hs.mem_alive _).mp hmem
    rw [hfresh] at hr
    cases hr
  obtain rfl : _ = s2 := Option.some.inj h
  constructor
  · show (allCoords s.bounds).countP
        (fun c => (if c = coords then some (s.next_cell_id + 1) else s.grid c).isSome) =
      (s.cells ++ [s.next_cell_id + 1]).length
    have key : (allCoords s.bounds).countP
        (fun c => (if c = coords then some (s.next_cell_id + 1) else s.grid c).isSome) =
        (allCoords s.bounds).countP (fun c => (s.grid c).isSome) + 1 := by
      have hupd := countP_update (allCoords s.bounds)
        (fun c => (if c = coords then some (s.next_cell_id + 1) else s.grid c).isSome)
        (fun c => (s.grid c).isSome) coords (nodup_allCoords _)
        ((mem_allCoords _ _).mpr hvalid)
        (fun c hc => by simp [hc])
      simpa [hnone] using hupd
    have hcnt : occCount s = s.cells.length := hs.count_eq
    unfold occCount at hcnt
    rw [key, hcnt, List.length_append, List.length_singleton]
  · dsimp only
    intro c cid
    by_cases hc : c = coords
    · constructor
      · intro h2
        rw [if_pos hc] at h2
        obtain rfl : s.next_cell_id + 1 = cid := Option.some.inj h2
        refine ⟨{ coords := coords, alive := true,
                  aux := applyCellInit (module_simulations cfg.genome) [] }, ?_, ?_, rfl⟩
        · rw [if_pos rfl]
        · exact hc.symm
      · rintro ⟨r, hr, hco, hal⟩
        rw [if_pos hc]
        by_cases hk : cid = s.next_cell_id + 1
        · rw [hk]
        · rw [if_neg hk] at hr
          have h3 := (hs.grid_iff c cid).mpr ⟨r, hr, hco, hal⟩
          rw [hc, hnone] at h3
          cases h3
    · simp only [if_neg hc]
      constructor
      · intro h2
        obtain ⟨r, hr, hco, hal⟩ := (hs.grid_iff c cid).mp h2
        have hk : cid ≠ s.next_cell_id + 1 := by
          intro he
          rw [he, hfresh] at hr
          cases hr
        exact ⟨r, by simp only [if_neg hk]; exact hr, hco, hal⟩
      · rintro ⟨r, hr, hco, hal⟩
        by_cases hk : cid = s.next_cell_id + 1
        · rw [if_pos hk] at hr
          obtain rfl : _ = r := Option.some.inj hr
          subst hco
          simp at hc
        · rw [if_neg hk] at hr
          exact (hs.grid_iff c cid).mpr ⟨r, hr, hco, hal⟩
  · dsimp only
    intro cid
    rw [List.mem_append, List.mem_singleton]
    by_cases hk : cid = s.next_cell_id + 1
    · subst hk
      constructor
      · intro _
        refine ⟨{ coords := coords, alive := true,
                  aux := applyCellInit (module_simulations cfg.genome) [] }, ?_, rfl⟩
        rw [if_pos rfl]
      · intro _
        right
        rfl
    · simp only [if_neg hk, hk, or_false]
      exact hs.mem_alive cid
  · dsimp only
    rw [List.nodup_append]
    exact ⟨hs.nodup, List.nodup_singleton _, by
      intro a ha hb
      rw [List.mem_singleton] at hb
      subst hb
      exact hnotmem ha⟩
  · dsimp only
    intro cid r hr hal
    by_cases hk : cid = s.next_cell_id + 1
    · rw [if_pos hk] at hr
      obtain rfl : _ = r := Option.some.inj hr
      exact hvalid
    · rw [if_neg hk] at hr
      exact hs.valid_live cid r hr hal
  · dsimp only
    intro cid r hr
    show cid ≤ s.next_cell_id + 1
    by_cases hk : cid = s.next_cell_id + 1
    · omega
    · rw [if_neg hk] at hr
      have := hs.id_bound cid r hr
      omega

lemma Inv_destroy (cfg : SimConfig) (s : SimState) (cid : Nat) (s2 : SimState)
    (h : destroy_cell cfg s cid = some s2) (hs : Inv s) : Inv s2 := by
  unfold destroy_cell at h
  split at h
  · cases h
  rename_i r hcd
  split at h
  swap
  · cases h
  rename_i hmem
  obtain rfl : _ = s2 := Option.some.inj h
  have halive : r.alive = true := by
    obtain ⟨r2, hr2, hal⟩ := (hs.mem_alive cid).mp hmem
    rw [hcd] at hr2
    obtain rfl : r = r2 := Option.some.inj hr2
    exact hal
  have hgrid : s.grid r.coords = some cid :=
    (hs.grid_iff r.coords cid).mpr ⟨r, hcd, rfl, halive⟩
  have hvalidc : valid_coords s.bounds r.coords = true :=
    hs.valid_live cid r hcd halive
  constructor
  · show (allCoords s.bounds).countP
        (fun c => (if c = r.coords then none else s.grid c).isSome) =
      (removeFirst s.cells cid).length
    have key : (allCoords s.bounds).countP
        (fun c => (if c = r.coords then none else s.grid c).isSome) + 1 =
        (allCoords s.bounds).countP (fun c => (s.grid c).isSome) := by
      have hupd := countP_update (allCoords s.bounds)
        (fun c => (if c = r.coords then none else s.grid c).isSome)
        (fun c => (s.grid c).isSome) r.coords (nodup_allCoords _)
        ((mem_allCoords _ _).mpr hvalidc)
        (fun c hc => by simp [hc])
      simpa [hgrid] using hupd
    have hcnt : occCount s = s.cells.length := hs.count_eq
    unfold occCount at hcnt
    have hlen := length_removeFirst s.cells cid hmem
    omega
  · dsimp only
    intro c k
    by_cases hc : c = r.coords
    · subst hc
      simp only [if_pos rfl]
      constructor
      · intro h2
        cases h2
      · rintro ⟨r2, hr2, hco, hal⟩
        by_cases hk : k = cid
        · subst hk
          rw [if_pos rfl] at hr2
          obtain rfl : _ = r2 := Option.some.inj hr2
          cases hal
        · rw [if_neg hk] at hr2
          have := (hs.grid_iff r.coords k).mpr ⟨r2, hr2, hco, hal⟩
          rw [hgrid] at this
          exact absurd (Option.some.inj this).symm hk
    · simp only [if_neg hc]
      constructor
      · intro h2
        obtain ⟨r2, hr2, hco, hal⟩ := (hs.grid_iff c k).mp h2
        have hk : k ≠ cid := by
          intro he
          rw [he, hcd] at hr2
          obtain rfl : r = r2 := Option.some.inj hr2
          exact hc hco.symm
        exact ⟨r2, by rw [if_neg hk]; exact hr2, hco, hal⟩
      · rintro ⟨r2, hr2, hco, hal⟩
        by_cases hk : k = cid
        · rw [if_pos hk] at hr2
          obtain rfl : _ = r2 := Option.some.inj hr2
          cases hal
        · rw [if_neg hk] at hr2
          exact (hs.grid_iff c k).mpr ⟨r2, hr2, hco, hal⟩
  · dsimp only
    intro k
    rw [mem_removeFirst s.cells cid k hs.nodup]
    by_cases hk : k = cid
    · subst hk
      simp only [if_pos rfl]
      constructor
      · rintro ⟨_, he⟩
        exact absurd rfl he
      · rintro ⟨r2, hr2, hal⟩
        obtain rfl : _ = r2 := Option.some.inj hr2
        cases hal
    · constructor
      · rintro ⟨hk2, _⟩
        obtain ⟨r2, hr2, hal⟩ := (hs.mem_alive k).mp hk2
        exact ⟨r2, by rw [if_neg hk]; exact hr2, hal⟩
      · rintro ⟨r2, hr2, hal⟩
        rw [if_neg hk] at hr2
        exact ⟨(hs.mem_alive k).mpr ⟨r2, hr2, hal⟩, hk⟩
  · exact (removeFirst_sublist s.cells cid).nodup hs.nodup
  · dsimp only
    intro k r2 hr2 hal
    by_cases hk : k = cid
    · rw [if_pos hk] at hr2
      obtain rfl : _ = r2 := Option.some.inj hr2
      cases hal
    · rw [if_neg hk] at hr2
      exact hs.valid_live k r2 hr2 hal
  · dsimp only
    intro k r2 hr2
    show k ≤ s.next_cell_id
    by_cases hk : k = cid
    · subst hk
      exact hs.id_bound k r hcd
    · rw [if_neg hk] at hr2
      exact hs.id_bound k r2 hr2

lemma Inv_divide (cfg : SimConfig) (s : SimState) (cid direction : Nat) (s2 : SimState)
    (h : divide_cell cfg s cid direction = some s2) (hs : Inv s) : Inv s2 := by
  unfold divide_cell at h
  split at h
  · cases h
  rename_i r hcd
  dsimp only at h
  split at h
  · exact Inv_create cfg s _ s2 h hs
  · obtain rfl : s = s2 := Option.some.inj h
    exact hs

lemma Inv_execAction (cfg : SimConfig) (s : SimState) (a : Action) (s2 : SimState)
    (h : execAction cfg s a = some s2) (hs : Inv s) : Inv s2 := by
  cases a with
  | create coords => exact Inv_create cfg s coords s2 h hs
  | destroy cid => exact Inv_destroy cfg s cid s2 h hs
  | divide cid direction => exact Inv_divide cfg s cid direction s2 h hs

lemma Inv_execActions (cfg : SimConfig) (acts : List Action) :
    ∀ s s2, execActions cfg acts s = some s2 → Inv s → Inv s2 := by
  induction acts with
  | nil =>
    intro s s2 h hs
    unfold execActions at h
    obtain rfl : s = s2 := Option.some.inj h
    exact hs
  | cons a rest ih =>
    intro s s2 h hs
    unfold execActions at h
    split at h
    · cases h
    rename_i s1 h1
    exact ih s1 s2 h (Inv_execAction cfg s a s1 h1 hs)

lemma Inv_handleModules (cfg : SimConfig)
    (pairs : List (ModuleDecl × (ModuleDecl × ModuleBeh))) :
    ∀ i s cid outputs s2, handleModules cfg pairs i s cid outputs = some s2 →
      Inv s → Inv s2 := by
  induction pairs with
  | nil =>
    intro i s cid outputs s2 h hs
    unfold handleModules at h
    obtain rfl : s = s2 := Option.some.inj h
    exact hs
  | cons p rest ih =>
    intro i s cid outputs s2 h hs
    obtain ⟨module, sim⟩ := p
    unfold handleModules at h
    dsimp only at h
    split at h
    swap
    · cases h
    split at h
    · cases h
    rename_i s1 h1
    have hs1 := Inv_execActions cfg _ s s1 h1 hs
    split at h
    · exact ih _ s1 cid outputs s2 h hs1
    · obtain rfl : s1 = s2 := Option.some.inj h
      exact hs1

lemma Inv_handleCell (cfg : SimConfig) (s : SimState) (cid : Nat) (outputs : List Int)
    (s2 : SimState) (h : handleCell cfg s cid outputs = some s2) (hs : Inv s) : Inv s2 := by
  unfold handleCell at h
  split at h
  · cases h
  rename_i s1 h1
  have hs1 := Inv_execActions cfg _ s s1 h1 hs
  split at h
  · exact Inv_handleModules cfg _ _ s1 cid outputs s2 h hs1
  · obtain rfl : s1 = s2 := Option.some.inj h
    exact hs1

lemma Inv_handlePairs (cfg : SimConfig) (pairs : List (Nat × List Int)) :
    ∀ s s2, handlePairs cfg pairs s = some s2 → Inv s → Inv s2 := by
  induction pairs with
  | nil =>
    intro s s2 h hs
    unfold handlePairs at h
    obtain rfl : s = s2 := Option.some.inj h
    exact hs
  | cons p rest ih =>
    intro s s2 h hs
    obtain ⟨cid, outs⟩ := p
    unfold handlePairs at h
    split at h
    · cases h
    rename_i s1 h1
    exact ih s1 s2 h (Inv_handleCell cfg s cid outs s1 h1 hs)

lemma Inv_runModuleSteps (cfg : SimConfig) (sims : List (ModuleDecl × ModuleBeh)) :
    ∀ s s2, runModuleSteps cfg sims s = some s2 → Inv s → Inv s2 := by
  induction sims with
  | nil =>
    intro s s2 h hs
    unfold runModuleSteps at h
    obtain rfl : s = s2 := Option.some.inj h
    exact hs
  | cons p rest ih =>
    intro s s2 h hs
    obtain ⟨m, beh⟩ := p
    unfold runModuleSteps at h
    split at h
    · cases h
    rename_i s1 h1
    exact ih s1 s2 h (Inv_execActions cfg _ s s1 h1 hs)

lemma Inv_resetCounters (s : SimState) (hs : Inv s) : Inv (resetCounters s) :=
  ⟨hs.count_eq, hs.grid_iff, hs.mem_alive, hs.nodup, hs.valid_live, hs.id_bound⟩

lemma Inv_incStep (s : SimState) (hs : Inv s) :
    Inv { s with step_count := s.step_count + 1 } :=
  ⟨hs.count_eq, hs.grid_iff, hs.mem_alive, hs.nodup, hs.valid_live, hs.id_bound⟩

lemma Inv_super_step (cfg : SimConfig) (s s2 : SimState)
    (h : super_step cfg s = some s2) (hs : Inv s) : Inv s2 := by
  unfold super_step at h
  dsimp only at h
  split at h
  · cases h
  split at h
  · cases h
  rename_i s1 h1
  have hs1 : Inv s1 :=
    Inv_handlePairs cfg _ _ s1 h1 (Inv_resetCounters s hs)
  split at h
  · cases h
  rename_i sA hA
  have hsA : Inv sA := Inv_execActions cfg _ s1 sA hA hs1
  split at h
  · cases h
  rename_i sB hB
  have hsB : Inv sB := Inv_runModuleSteps cfg _ sA sB hB hsA
  obtain rfl : _ = s2 := Option.some.inj h
  exact Inv_incStep sB hsB

/-! The step counter advances by exactly one per completed tick: no
lifecycle operation or hook action touches it, and super_step increments
it once at the end. -/

lemma step_count_create (cfg : SimConfig) (s : SimState) (coords : Coord) (s2 : SimState)
    (h : create_cell cfg s coords = some s2) : s2.step_count = s.step_count := by
  unfold create_cell at h
  split at h
  swap
  · cases h
  obtain rfl : _ = s2 := Option.some.inj h
  rfl

lemma step_count_destroy (cfg : SimConfig) (s : SimState) (cid : Nat) (s2 : SimState)
    (h : destroy_cell cfg s cid = some s2) : s2.step_count = s.step_count := by
  unfold destroy_cell at h
  split at h
  · cases h
  rename_i r hcd
  split at h
  swap
  · cases h
  obtain rfl : _ = s2 := Option.some.inj h
  rfl

lemma step_count_divide (cfg : SimConfig) (s : SimState) (cid direction : Nat)
    (s2 : SimState) (h : divide_cell cfg s cid direction = some s2) :
    s2.step_count = s.step_count := by
  unfold divide_cell at h
  split at h
  · cases h
  rename_i r hcd
  dsimp only at h
  split at h
  · exact step_count_create cfg s _ s2 h
  · obtain rfl : s = s2 := Option.some.inj h
    rfl

lemma step_count_execAction (cfg : SimConfig) (s : SimState) (a : Action) (s2 : SimState)
    (h : execAction cfg s a = some s2) : s2.step_count = s.step_count := by
  cases a with
  | create coords => exact step_count_create cfg s coords s2 h
  | destroy cid => exact step_count_destroy cfg s cid s2 h
  | divide cid direction => exact step_count_divide cfg s cid direction s2 h

lemma step_count_execActions (cfg : SimConfig) (acts : List Action) :
    ∀ s s2, execActions cfg acts s = some s2 → s2.step_count = s.step_count := by
  induction acts with
  | nil =>
    intro s s2 h
    unfold execActions at h
    obtain rfl : s = s2 := Option.some.inj h
    rfl
  | cons a rest ih =>
    intro s s2 h
    unfold execActions at h
    split at h
    · cases h
    rename_i s1 h1
    rw [ih s1 s2 h, step_count_execAction cfg s a s1 h1]

lemma step_count_handleModules (cfg : SimConfig)
    (pairs : List (ModuleDecl × (ModuleDecl × ModuleBeh))) :
    ∀ i s cid outputs s2, handleModules cfg pairs i s cid outputs = some s2 →
      s2.step_count = s.step_count := by
  induction pairs with
  | nil =>
    intro i s cid outputs s2 h
    unfold handleModules at h
    obtain rfl : s = s2 := Option.some.inj h
    rfl
  | cons p rest ih =>
    intro i s cid outputs s2 h
    obtain ⟨module, sim⟩ := p
    unfold handleModules at h
    dsimp only at h
    split at h
    swap
    · cases h
    split at h
    · cases h
    rename_i s1 h1
    split at h
    · rw [ih _ s1 cid outputs s2 h, step_count_execActions cfg _ s s1 h1]
    · obtain rfl : s1 = s2 := Option.some.inj h
      exact step_count_execActions cfg _ s s1 h1

lemma step_count_handleCell (cfg : SimConfig) (s : SimState) (cid : Nat)
    (outputs : List Int) (s2 : SimState) (h : handleCell cfg s cid outputs = some s2) :
    s2.step_count = s.step_count := by
  unfold handleCell at h
  split at h
  · cases h
  rename_i s1 h1
  split at h
  · rw [step_count_handleModules cfg _ _ s1 cid outputs s2 h,
      step_count_execActions cfg _ s s1 h1]
  · obtain rfl : s1 = s2 := Option.some.inj h
    exact step_count_execActions cfg _ s s1 h1

lemma step_count_handlePairs (cfg : SimConfig) (pairs : List (Nat × List Int)) :
    ∀ s s2, handlePairs cfg pairs s = some s2 → s2.step_count = s.step_count := by
  induction pairs with
  | nil =>
    intro s s2 h
    unfold handlePairs at h
    obtain rfl : s = s2 := Option.some.inj h
    rfl
  | cons p rest ih =>
    intro s s2 h
    obtain ⟨cid, outs⟩ := p
    unfold handlePairs at h
    split at h
    · cases h
    rename_i s1 h1
    rw [ih s1 s2 h, step_count_handleCell cfg s cid outs s1 h1]

lemma step_count_runModuleSteps (cfg : SimConfig) (sims : List (ModuleDecl × ModuleBeh)) :
    ∀ s s2, runModuleSteps cfg sims s = some s2 → s2.step_count = s.step_count := by
  induction sims with
  | nil =>
    intro s s2 h
    unfold runModuleSteps at h
    obtain rfl : s = s2 := Option.some.inj h
    rfl
  | cons p rest ih =>
    intro s s2 h
    obtain ⟨m, beh⟩ := p
    unfold runModuleSteps at h
    split at h
    · cases h
    rename_i s1 h1
    rw [ih s1 s2 h, step_count_execActions cfg _ s s1 h1]

lemma step_count_super_step (cfg : SimConfig) (s s2 : SimState)
    (h : super_step cfg s = some s2) : s2.step_count = s.step_count + 1 := by
  unfold super_step at h
  dsimp only at h
  split at h
  · cases h
  rename_i outs houts
  split at h
  · cases h
  rename_i s1 h1
  split at h
  · cases h
  rename_i sA hA
  split at h
  · cases h
  rename_i sB hB
  obtain rfl : _ = s2 := Option.some.inj h
  show sB.step_count + 1 = s.step_count + 1
  have e1 : s1.step_count = s.step_count :=
    step_count_handlePairs cfg ((resetCounters s).cells.zip outs) (resetCounters s) s1 h1
  rw [step_count_runModuleSteps cfg _ sA sB hB, step_count_execActions cfg _ s1 sA hA, e1]

/-! Characterizations of the run loop used by the claims about run. -/

lemma runAux_inactivity_final (cfg : SimConfig) :
    ∀ fuel s m seen res, runAux cfg fuel s m seen = some res →
      res.reason = StopReason.inactivity →
      5 < res.final.step_count - res.final.last_change := by
  intro fuel
  induction fuel with
  | zero =>
    intro s m seen res h hr
    unfold runAux at h
    obtain rfl : _ = res := Option.some.inj h
    exact StopReason.noConfusion hr
  | succ fuel1 ih =>
    intro s m seen res h hr
    unfold runAux at h
    split at h
    · cases h
    rename_i s1 h1
    dsimp only at h
    split at h
    · obtain rfl : _ = res := Option.some.inj h
      exact StopReason.noConfusion hr
    split at h
    · rename_i hcond
      obtain rfl : _ = res := Option.some.inj h
      exact hcond
    split at h
    · split at h
      · obtain rfl : _ = res := Option.some.inj h
        exact StopReason.noConfusion hr
      · exact ih s1 _ _ res h hr
    · exact ih s1 _ _ res h hr

lemma runAux_repeat_fitness (cfg : SimConfig) :
    ∀ fuel s m seen res, runAux cfg fuel s m seen = some res →
      res.reason = StopReason.stateRepeat →
      res.fitness = cfg.fitness res.final := by
  intro fuel
  induction fuel with
  | zero =>
    intro s m seen res h hr
    unfold runAux at h
    obtain rfl : _ = res := Option.some.inj h
    exact StopReason.noConfusion hr
  | succ fuel1 ih =>
    intro s m seen res h hr
    unfold runAux at h
    split at h
    · cases h
    rename_i s1 h1
    dsimp only at h
    split at h
    · obtain rfl : _ = res := Option.some.inj h
      exact StopReason.noConfusion hr
    split at h
    · obtain rfl : _ = res := Option.some.inj h
      exact StopReason.noConfusion hr
    split at h
    · split at h
      · obtain rfl : _ = res := Option.some.inj h
        rfl
      · exact ih s1 _ _ res h hr
    · exact ih s1 _ _ res h hr

lemma runAux_max_char (cfg : SimConfig) :
    ∀ fuel s m seen res, runAux cfg fuel s m seen = some res →
      res.reason ≠ StopReason.stateRepeat →
      ∃ n l, tickStates cfg s n = some res.final ∧
        res.final.step_count = s.step_count + n ∧
        fitsAfter cfg s n = some l ∧ res.fitness = l.foldl max m := by
  intro fuel
  induction fuel with
  | zero =>
    intro s m seen res h _
    unfold runAux at h
    obtain rfl : _ = res := Option.some.inj h
    exact ⟨0, [], rfl, rfl, rfl, rfl⟩
  | succ fuel1 ih =>
    intro s m seen res h hr
    unfold runAux at h
    split at h
    · cases h
    rename_i s1 h1
    dsimp only at h
    split at h
    · obtain rfl : _ = res := Option.some.inj h
      refine ⟨1, [cfg.fitness s1], ?_, ?_, ?_, rfl⟩
      · unfold tickStates
        rw [h1]
        rfl
      · exact step_count_super_step cfg s s1 h1
      · unfold fitsAfter
        rw [h1]
        rfl
    split at h
    · obtain rfl : _ = res := Option.some.inj h
      refine ⟨1, [cfg.fitness s1], ?_, ?_, ?_, rfl⟩
      · unfold tickStates
        rw [h1]
        rfl
      · exact step_count_super_step cfg s s1 h1
      · unfold fitsAfter
        rw [h1]
        rfl
    split at h
    · split at h
      · obtain rfl : _ = res := Option.some.inj h
        exact absurd rfl hr
      · obtain ⟨n, l, hts, hsc, hfa, hfit⟩ := ih s1 _ _ res h hr
        refine ⟨n + 1, cfg.fitness s1 :: l, ?_, ?_, ?_, hfit⟩
        · unfold tickStates
          rw [h1]
          dsimp only
          exact hts
        · rw [hsc, step_count_super_step cfg s s1 h1]
          omega
        · unfold fitsAfter
          rw [h1]
          dsimp only
          rw [hfa]
    · obtain ⟨n, l, hts, hsc, hfa, hfit⟩ := ih s1 _ _ res h hr
      refine ⟨n + 1, cfg.fitness s1 :: l, ?_, ?_, ?_, hfit⟩
      · unfold tickStates
        rw [h1]
        dsimp only
        exact hts
      · rw [hsc, step_count_super_step cfg s s1 h1]
        omega
      · unfold fitsAfter
        rw [h1]
        dsimp only
        rw [hfa]

lemma collectModuleInputs_length (s : SimState) (cid : Nat) :
    ∀ (sims : List (ModuleDecl × ModuleBeh)) (acc inp : List Int),
      collectModuleInputs sims s cid acc = some inp →
      inp.length = acc.length + (sims.map (fun p => p.1.numInputs)).sum := by
  intro sims
  induction sims with
  | nil =>
    intro acc inp h
    unfold collectModuleInputs at h
    obtain rfl : acc = inp := Option.some.inj h
    simp
  | cons p rest ih =>
    intro acc inp h
    obtain ⟨m, beh⟩ := p
    unfold collectModuleInputs at h
    dsimp only at h
    split at h
    swap
    · cases h
    rename_i hlen
    have hrec := ih (acc ++ beh.create_input s cid) inp h
    rw [hrec, List.length_append, hlen, List.map_cons, List.sum_cons]
    dsimp only
    omega

lemma module_simulations_inputs_sum (g : Genome)
    (hall : ∀ m ∈ g.modules, m.simulation.isSome = true) :
    ((module_simulations g).map (fun p => p.1.numInputs)).sum =
      (g.modules.map (fun m => m.numInputs)).sum := by
  unfold module_simulations
  revert hall
  induction g.modules with
  | nil =>
    intro _
    simp
  | cons m rest ih =>
    intro hall
    obtain ⟨b, hb⟩ := Option.isSome_iff_exists.mp (hall m (List.mem_cons_self m rest))
    rw [List.filterMap_cons]
    rw [hb]
    simp only [Option.map_some']
    rw [List.map_cons, List.sum_cons, List.map_cons, List.sum_cons,
      ih (fun x hx => hall x (List.mem_cons_of_mem m hx))]

/-! Concrete genomes, module behaviors and configurations used by the
scenario parts of the claims.  Hooks are instantiations of the abstract
collaborator interfaces of the specification. -/

/-- A genome with no inputs, no outputs, no modules and no target. -/
def trivialGenome : Genome where
  non_module_inputs := 0
  non_module_outputs := 0
  num_inputs := 0
  num_outputs := 0
  modules := []
  fitness := none
  think := fun _ => []

/-- A configuration whose hooks do nothing. -/
def cfg0 : SimConfig where
  genome := trivialGenome
  max_steps := 1
  break_on_repeat := false
  create_input := fun _ _ => []
  handle_output := fun _ _ _ => []
  step := fun _ => []
  fitness := fun _ => 0

/-- An empty 2 by 2 simulation state. -/
def st0 : SimState := initState (2, 2)

/-- The state after creating one cell at the origin of st0. -/
def stA : SimState := (create_cell cfg0 st0 (0, 0)).getD st0

/-- Scenario configuration for claim C1: the base input of every cell is 7
while cell 2 is alive and 9 once it is dead; the decision function is the
identity; the output handler of cell 1 destroys cell 2, and any cell whose
output vector is not the pre-destruction value 7 would create a marker
cell at coordinate (2, 2). -/
def cfgC1 : SimConfig where
  genome := { non_module_inputs := 1, non_module_outputs := 1, num_inputs := 1,
              num_outputs := 1, modules := [], fitness := none, think := fun l => l }
  max_steps := 1
  break_on_repeat := false
  create_input := fun s _ => [if aliveIn s 2 then (7 : Int) else 9]
  handle_output := fun _ cid out =>
    if cid = 1 then [Action.destroy 2]
    else if out = [(7 : Int)] then [] else [Action.create (2, 2)]
  step := fun _ => []
  fitness := fun _ => 0

/-- Two neighboring cells, ids 1 and 2, for the C1 scenario. -/
def stC1 : SimState :=
  ((create_cell cfgC1 (initState (3, 3)) (0, 0)).bind
    (fun s => create_cell cfgC1 s (1, 0))).getD (initState (3, 3))

/-- Module behavior for claim C5: its per-tick step hook creates a cell at
(1, 1) unless (0, 0) is already occupied. -/
def behC5 : ModuleBeh where
  create_input := fun _ _ => []
  handle_output := fun _ _ _ => []
  cell_init := fun a => a
  cell_destroy := fun a => a
  step := fun s => if (s.grid (0, 0)).isSome then [] else [Action.create (1, 1)]

/-- Scenario configuration for claim C5: the concrete-simulation step hook
creates a cell at (0, 0) unless (1, 1) is occupied, so the two per-tick
hooks observe each other and the final grid reveals their order. -/
def cfgC5 : SimConfig where
  genome := { non_module_inputs := 0, non_module_outputs := 0, num_inputs := 0,
              num_outputs := 0, modules := [⟨0, 0, some behC5⟩], fitness := none,
              think := fun _ => [] }
  max_steps := 1
  break_on_repeat := false
  create_input := fun _ _ => []
  handle_output := fun _ _ _ => []
  step := fun s => if (s.grid (1, 1)).isSome then [] else [Action.create (0, 0)]
  fitness := fun _ => 0

/-- Module behavior for claim C6, declaring input width 2 and output width
1: it contributes inputs 11 and 12, and its output handler creates a
marker cell at (2, 2) exactly when the slice it receives is the single
value 42, the last entry of the combined output vector. -/
def behC6 : ModuleBeh where
  create_input := fun _ _ => [11, 12]
  handle_output := fun _ _ out => if out = [(42 : Int)] then [Action.create (2, 2)] else []
  cell_init := fun a => a
  cell_destroy := fun a => a
  step := fun _ => []

/-- Scenario configuration for claim C6: one module with input_count 2 and
output_count 1; base inputs contribute the single value 10, and the
decision function emits the combined output vector 20, 42 exactly when it
receives the combined input vector 10, 11, 12. -/
def cfgC6 : SimConfig where
  genome := { non_module_inputs := 1, non_module_outputs := 1, num_inputs := 3,
              num_outputs := 2, modules := [⟨2, 1, some behC6⟩], fitness := none,
              think := fun l => if l = [(10 : Int), 11, 12] then [20, 42] else [0, 0] }
  max_steps := 1
  break_on_repeat := false
  create_input := fun _ _ => [10]
  handle_output := fun _ _ _ => []
  step := fun _ => []
  fitness := fun _ => 0

/-- One cell at the origin for the C6 scenario. -/
def stC6 : SimState := (create_cell cfgC6 (initState (3, 3)) (0, 0)).getD (initState (3, 3))

/-- First module behavior for claim C7: its output handler destroys the
cell it is applied to. -/
def behC7a : ModuleBeh where
  create_input := fun _ _ => []
  handle_output := fun _ cid _ => [Action.destroy cid]
  cell_init := fun a => a
  cell_destroy := fun a => a
  step := fun _ => []

/-- Second module behavior for claim C7: its output handler would create a
marker cell at (2, 2) if it were ever invoked. -/
def behC7b : ModuleBeh where
  create_input := fun _ _ => []
  handle_output := fun _ _ _ => [Action.create (2, 2)]
  cell_init := fun a => a
  cell_destroy := fun a => a
  step := fun _ => []

/-- Scenario configuration for claim C7: two modules with output width 1
each; the first kills the cell, so the second must never see its slice. -/
def cfgC7 : SimConfig where
  genome := { non_module_inputs := 0, non_module_outputs := 0, num_inputs := 0,
              num_outputs := 2, modules := [⟨0, 1, some behC7a⟩, ⟨0, 1, some behC7b⟩],
              fitness := none, think := fun _ => [3, 4] }
  max_steps := 1
  break_on_repeat := false
  create_input := fun _ _ => []
  handle_output := fun _ _ _ => []
  step := fun _ => []
  fitness := fun _ => 0

/-- One cell at the origin for the C7 scenario. -/
def stC7 : SimState := (create_cell cfgC7 (initState (3, 3)) (0, 0)).getD (initState (3, 3))

/-- Scenario configuration for claim C8: max_steps 10, a single structural
change at tick 2 (the step hook creates a cell at the origin then), and a
fitness of 9 observed after tick 3 and 1 after every other tick. -/
def cfgC8 : SimConfig where
  genome := trivialGenome
  max_steps := 10
  break_on_repeat := false
  create_input := fun _ _ => []
  handle_output := fun _ _ _ => []
  step := fun s => if s.step_count = 2 then [Action.create (0, 0)] else []
  fitness := fun s => if s.step_count = 4 then 9 else 1

/-- A state whose step counter is already at 9, used to witness the
one-tick inactivity-return characterization. -/
def stW : SimState := { initState (2, 2) with step_count := 9 }

/-- Counterexample configuration for claim C4: repeat detection on, an
empty grid whose hash repeats immediately, and a fitness of 5 after the
first tick and 1 afterwards, so the running maximum 5 differs from the
fitness returned at the repeat. -/
def cfgC4 : SimConfig where
  genome := trivialGenome
  max_steps := 5
  break_on_repeat := true
  create_input := fun _ _ => []
  handle_output := fun _ _ _ => []
  step := fun _ => []
  fitness := fun s => if s.step_count = 1 then 5 else 1

/-- Counterexample configuration for claim C10: repeat detection on and a
fitness that is always negative. -/
def cfgC10 : SimConfig where
  genome := trivialGenome
  max_steps := 5
  break_on_repeat := true
  create_input := fun _ _ => []
  handle_output := fun _ _ _ => []
  step := fun _ => []
  fitness := fun _ => -1

/-- A configuration with always-negative fitness, no repeat detection and
max_steps 2: the run ends by the step limit and returns the initial
running maximum 0. -/
def cfgC10b : SimConfig where
  genome := trivialGenome
  max_steps := 2
  break_on_repeat := false
  create_input := fun _ _ => []
  handle_output := fun _ _ _ => []
  step := fun _ => []
  fitness := fun _ => -1

/-! The claim theorems. -/

/-- C1: in every tick the Collect phase computes and stores one output
vector per cell of the pre-tick snapshot before any output is applied:
super_step factors through create_all_outputs evaluated once on the
pre-tick state (a pure function of that state), followed by the apply
phase on the stored vectors.  In the concrete scenario, the output of
cell 1 destroys cell 2, yet the output vector stored for cell 2 is the
pre-destruction value 7 (not 9), so its apply-phase handler, which would
create a marker at (2, 2) on any other value, creates nothing: no
apply-phase mutation is observed by the collection of the same tick. -/
theorem C1_two_phase_collect :
    (∀ cfg s, super_step cfg s =
      match create_all_outputs cfg (resetCounters s) with
      | none => none
      | some all_outputs => applyPhase cfg (resetCounters s) all_outputs) ∧
    create_all_outputs cfgC1 stC1 = some [[7], [7]] ∧
    (super_step cfgC1 stC1).map
      (fun s => ((s.grid (2, 2)).isSome, aliveIn s 2, s.cells)) =
      some (false, false, [1]) := by
  refine ⟨?_, by decide, by decide⟩
  intro cfg s
  rfl

/-- C2: creating a cell at an in-bounds empty coordinate adds exactly one
live cell and occupies that coordinate with the new cell id, and
destroying that cell restores both the live list and the whole grid
occupancy. -/
theorem C2_create_destroy_inverse (cfg : SimConfig) (s : SimState) (c : Coord)
    (h1 : valid_coords s.bounds c = true) (h2 : s.grid c = none)
    (h3 : s.next_cell_id + 1 ∉ s.cells) :
    ∃ s2, create_cell cfg s c = some s2 ∧
      s2.cells.length = s.cells.length + 1 ∧
      s2.grid c = some (s.next_cell_id + 1) ∧
      ∃ s3, destroy_cell cfg s2 (s.next_cell_id + 1) = some s3 ∧
        s3.cells = s.cells ∧ (∀ c2, s3.grid c2 = s.grid c2) := by
  have hcond : (valid_coords s.bounds c && !(s.grid c).isSome) = true := by
    rw [h1, h2]
    rfl
  unfold create_cell
  rw [if_pos hcond]
  refine ⟨_, rfl, ?_, ?_, ?_⟩
  · dsimp only
    rw [List.length_append, List.length_singleton]
  · dsimp only
    rw [if_pos rfl]
  · unfold destroy_cell
    dsimp only
    rw [if_pos rfl]
    dsimp only
    rw [if_pos (List.mem_append_right s.cells (List.mem_singleton.mpr rfl))]
    refine ⟨_, rfl, ?_, ?_⟩
    · dsimp only
      exact removeFirst_append_singleton s.cells _ h3
    · intro c2
      dsimp only
      by_cases hc2 : c2 = c
      · rw [if_pos hc2, hc2, h2]
      · rw [if_neg hc2, if_neg hc2]

/-- A closed instance of C2 at the empty 2 by 2 state and the origin. -/
theorem C2_witness :
    ∃ s2, create_cell cfg0 st0 (0, 0) = some s2 ∧
      s2.cells.length = st0.cells.length + 1 ∧
      s2.grid (0, 0) = some (st0.next_cell_id + 1) ∧
      ∃ s3, destroy_cell cfg0 s2 (st0.next_cell_id + 1) = some s3 ∧
        s3.cells = st0.cells ∧ (∀ c2, s3.grid c2 = st0.grid c2) :=
  C2_create_destroy_inverse cfg0 st0 (0, 0) (by decide) rfl (by decide)

/-- C3: the consistency invariant (occupied-coordinate count equals the
live-list length, and a coordinate maps to a cell id exactly when that
cell object stores this coordinate and is alive) holds after every
completed create_cell, destroy_cell and divide_cell, and hence after every
completed tick. -/
theorem C3_registry_grid_consistency :
    (∀ s, Inv s → occCount s = s.cells.length ∧
      ∀ c cid, s.grid c = some cid ↔
        ∃ r, s.cellData cid = some r ∧ r.coords = c ∧ r.alive = true) ∧
    (∀ cfg s c s2, Inv s → create_cell cfg s c = some s2 → Inv s2) ∧
    (∀ cfg s cid s2, Inv s → destroy_cell cfg s cid = some s2 → Inv s2) ∧
    (∀ cfg s cid direction s2, Inv s → divide_cell cfg s cid direction = some s2 →
      Inv s2) ∧
    (∀ cfg s s2, Inv s → super_step cfg s = some s2 → Inv s2) :=
  ⟨fun _ hs => ⟨hs.count_eq, hs.grid_iff⟩,
   fun cfg s c s2 hs h => Inv_create cfg s c s2 h hs,
   fun cfg s cid s2 hs h => Inv_destroy cfg s cid s2 h hs,
   fun cfg s cid direction s2 hs h => Inv_divide cfg s cid direction s2 h hs,
   fun cfg s s2 hs h => Inv_super_step cfg s s2 h hs⟩

/-- A closed instance of C3: the invariant holds after creating a cell in
the empty state. -/
theorem C3_witness : Inv ((create_cell cfg0 st0 (0, 0)).getD st0) :=
  C3_registry_grid_consistency.2.1 cfg0 st0 (0, 0)
    ((create_cell cfg0 st0 (0, 0)).getD st0) (Inv_initState (2, 2)) rfl

/-- C4 as stated is false: in the cfgC4 run the fitness observed after the
two completed ticks is 5 then 1 (running maximum 5), but the run ends by
state-repeat detection and returns 1, the current fitness, not the
maximum observed. -/
theorem C4_counterexample :
    (run cfgC4 st0).map (fun r => (r.fitness, r.reason)) =
      some (1, StopReason.stateRepeat) ∧
    fitsAfter cfgC4 st0 2 = some [5, 1] ∧ ((1 : Int) < 5) :=
  ⟨by decide, by decide, by decide⟩

/-- C4 amended: when the run ends by target fitness, inactivity or the
step limit, it returns the running maximum over all completed ticks of the
run: there is a tick count n such that iterating super_step n times from
the initial state reaches exactly the final state of the run, the final
step counter equals the initial one plus n (each tick advances it by
exactly one, so n is the number of completed ticks), and the returned
value is the fold of max, starting from 0, over the fitness values
observed after each of those n ticks.  When the run ends by state-repeat
detection it instead returns the fitness at the final tick. -/
theorem C4_run_returns_running_max (cfg : SimConfig) (s : SimState) (res : RunResult)
    (h : run cfg s = some res) :
    (res.reason ≠ StopReason.stateRepeat →
      ∃ n l, tickStates cfg s n = some res.final ∧
        res.final.step_count = s.step_count + n ∧
        fitsAfter cfg s n = some l ∧ res.fitness = l.foldl max 0) ∧
    (res.reason = StopReason.stateRepeat → res.fitness = cfg.fitness res.final) :=
  ⟨fun hr => runAux_max_char cfg cfg.max_steps s 0 [] res h hr,
   fun hr => runAux_repeat_fitness cfg cfg.max_steps s 0 [] res h hr⟩

/-- A closed instance of the amended C4 at a run that ends by the step
limit. -/
theorem C4_witness :
    ∃ n l, tickStates cfgC10b st0 n =
        some ((run cfgC10b st0).getD ⟨0, StopReason.maxSteps, st0⟩).final ∧
      ((run cfgC10b st0).getD ⟨0, StopReason.maxSteps, st0⟩).final.step_count =
        st0.step_count + n ∧
      fitsAfter cfgC10b st0 n = some l ∧
      ((run cfgC10b st0).getD ⟨0, StopReason.maxSteps, st0⟩).fitness =
        l.foldl max 0 :=
  (C4_run_returns_running_max cfgC10b st0
    ((run cfgC10b st0).getD ⟨0, StopReason.maxSteps, st0⟩) rfl).1 (by decide)

/-- C5 as stated is false: the code runs the concrete-simulation per-tick
hook BEFORE the module step hooks.  With hooks that watch each other
through the grid, the code order leaves a cell at (0, 0) and none at
(1, 1); the order the claim asserts (modules first) would leave the
opposite picture. -/
theorem C5_counterexample :
    (super_step cfgC5 (initState (3, 3))).map
      (fun s => ((s.grid (0, 0)).isSome, (s.grid (1, 1)).isSome)) =
      some (true, false) ∧
    (super_step_claim_order cfgC5 (initState (3, 3))).map
      (fun s => ((s.grid (0, 0)).isSome, (s.grid (1, 1)).isSome)) =
      some (false, true) :=
  ⟨by decide, by decide⟩

/-- C5 amended: after all stored pairs are applied, the concrete
simulation per-tick hook runs first, then every module step hook in
module order, and then the step counter is incremented; concretely one
tick of cfgC5 increments the counter to 1. -/
theorem C5_amended_hook_order :
    (∀ cfg s, super_step cfg s =
      match create_all_outputs cfg (resetCounters s) with
      | none => none
      | some all_outputs =>
        match handle_all_outputs cfg (resetCounters s) all_outputs with
        | none => none
        | some s1 =>
          match execActions cfg (cfg.step s1) s1 with
          | none => none
          | some s2 =>
            match runModuleSteps cfg (module_simulations cfg.genome) s2 with
            | none => none
            | some s3 => some { s3 with step_count := s3.step_count + 1 }) ∧
    (super_step cfgC5 (initState (3, 3))).map (fun s => s.step_count) = some 1 := by
  refine ⟨?_, by decide⟩
  intro cfg s
  rfl

/-- C6: when every module has a simulation, a successful collection for a
cell certifies that the base input vector has length non_module_inputs,
that the genome total input count equals non_module_inputs plus the sum of
the module input counts, and that the output vector has the declared total
output length.  In the concrete scenario a module declaring input width 2
and output width 1 contributes inputs 11, 12 after the base input 10, the
combined vector 10, 11, 12 of length 1 + 2 = 3 produces the output vector
20, 42 of length 1 + 1 = 2, and the module handler receives exactly the
last entry 42, visible as the marker cell it creates at (2, 2). -/
theorem C6_vector_widths_and_slices :
    (∀ cfg s cid out,
      (∀ m ∈ cfg.genome.modules, m.simulation.isSome = true) →
      collectOne cfg s cid = some out →
      (cfg.create_input s cid).length = cfg.genome.non_module_inputs ∧
      cfg.genome.num_inputs = cfg.genome.non_module_inputs +
        (cfg.genome.modules.map (fun m => m.numInputs)).sum ∧
      out.length = cfg.genome.num_outputs) ∧
    create_all_outputs cfgC6 stC6 = some [[20, 42]] ∧
    (super_step cfgC6 stC6).map (fun s => ((s.grid (2, 2)).isSome, s.cells)) =
      some (true, [1, 2]) := by
  refine ⟨?_, by decide, by decide⟩
  intro cfg s cid out hall h
  unfold collectOne at h
  dsimp only at h
  split at h
  swap
  · cases h
  rename_i hbase
  split at h
  · cases h
  rename_i inputs hinp
  split at h
  swap
  · cases h
  rename_i hni
  split at h
  swap
  · cases h
  rename_i hno
  obtain rfl : _ = out := Option.some.inj h
  refine ⟨hbase, ?_, hno⟩
  have hlen := collectModuleInputs_length s cid (module_simulations cfg.genome) _ inputs hinp
  rw [module_simulations_inputs_sum cfg.genome hall] at hlen
  rw [← hni, hlen, hbase]

/-- A closed instance of the general part of C6 at the scenario input. -/
theorem C6_witness :
    (cfgC6.create_input stC6 1).length = cfgC6.genome.non_module_inputs ∧
    cfgC6.genome.num_inputs = cfgC6.genome.non_module_inputs +
      (cfgC6.genome.modules.map (fun m => m.numInputs)).sum ∧
    ([(20 : Int), 42]).length = cfgC6.genome.num_outputs :=
  C6_vector_widths_and_slices.1 cfgC6 stC6 1 [20, 42] (by decide) (by decide)

/-- C7: if the cell is dead after the base output handling, the remaining
module slices are skipped for that cell; if it dies after some module
handler, the later modules in the order are skipped.  In the concrete
scenario the first module kills the cell, and the second module, which
would create a marker at (2, 2), never runs. -/
theorem C7_dead_cell_stops_module_outputs :
    (∀ cfg s cid outputs s1,
      execActions cfg (cfg.handle_output s cid
        (outputs.take cfg.genome.non_module_outputs)) s = some s1 →
      aliveIn s1 cid = false → handleCell cfg s cid outputs = some s1) ∧
    (∀ cfg (module : ModuleDecl) (sim : ModuleDecl × ModuleBeh) rest i s cid
        (outputs : List Int) s1,
      ((outputs.drop i).take module.numOutputs).length = module.numOutputs →
      execActions cfg (sim.2.handle_output s cid
        ((outputs.drop i).take module.numOutputs)) s = some s1 →
      aliveIn s1 cid = false →
      handleModules cfg ((module, sim) :: rest) i s cid outputs = some s1) ∧
    (super_step cfgC7 stC7).map
      (fun s => (aliveIn s 1, (s.grid (2, 2)).isSome, s.cells)) =
      some (false, false, []) := by
  refine ⟨?_, ?_, by decide⟩
  · intro cfg s cid outputs s1 hexec hdead
    unfold handleCell
    rw [hexec]
    dsimp only
    rw [hdead]
    rfl
  · intro cfg module sim rest i s cid outputs s1 hlen hexec hdead
    unfold handleModules
    dsimp only
    rw [if_pos hlen, hexec]
    dsimp only
    rw [hdead]
    rfl

/-- A closed instance of C7 applied to a cell id with no live object: the
base handling leaves the state unchanged and no module slice is applied. -/
theorem C7_witness : handleCell cfgC7 stC7 99 [] = some stC7 :=
  C7_dead_cell_stops_module_outputs.1 cfgC7 stC7 99 [] stC7 rfl rfl

/-- C8: a run that returns with the inactivity reason does so exactly when
after a completed tick the step counter exceeds the last structural change
step by more than 5: every inactivity return satisfies the inequality, and
whenever a tick completes with the inequality satisfied (and the target
check does not fire first) the loop returns at once with the inactivity
reason and the running maximum.  In the concrete scenario with max_steps
10 and the only structural change at tick 2, the run ends after tick 7
(step counter 8) with the inactivity reason, returning the maximum
fitness 9 observed across ticks 0 to 7. -/
theorem C8_inactivity_termination :
    (∀ cfg s res, run cfg s = some res → res.reason = StopReason.inactivity →
      5 < res.final.step_count - res.final.last_change) ∧
    (∀ cfg fuel s m seen s1, super_step cfg s = some s1 →
      targetHit cfg.genome (max m (cfg.fitness s1)) = false →
      5 < s1.step_count - s1.last_change →
      runAux cfg (fuel + 1) s m seen =
        some ⟨max m (cfg.fitness s1), StopReason.inactivity, s1⟩) ∧
    (run cfgC8 (initState (3, 3))).map
      (fun r => (r.fitness, r.reason, r.final.step_count)) =
      some (9, StopReason.inactivity, 8) := by
  refine ⟨?_, ?_, by decide⟩
  · intro cfg s res h hr
    exact runAux_inactivity_final cfg cfg.max_steps s 0 [] res h hr
  · intro cfg fuel s m seen s1 h1 htgt hcond
    unfold runAux
    rw [h1]
    dsimp only
    rw [htgt, if_neg (by decide), if_pos hcond]

/-- A closed instance of the one-tick inactivity return of C8. -/
theorem C8_witness :
    runAux cfgC8 3 stW 0 [] =
      some ⟨max 0 (cfgC8.fitness ((super_step cfgC8 stW).getD stW)),
            StopReason.inactivity, (super_step cfgC8 stW).getD stW⟩ :=
  C8_inactivity_termination.2.1 cfgC8 2 stW 0 []
    ((super_step cfgC8 stW).getD stW) rfl (by decide) (by decide)

/-- C9: dividing a cell whose neighbor coordinate in the given direction
is out of bounds or occupied is a silent no-op returning the state
unchanged (no exception), and when the neighbor coordinate is in bounds
and empty a new cell is created there. -/
theorem C9_divide_noop_or_create (cfg : SimConfig) (s : SimState)
    (cid direction : Nat) (r : CellRec) (h : s.cellData cid = some r) :
    (¬ (valid_coords s.bounds (neighbor r.coords direction) = true ∧
        s.grid (neighbor r.coords direction) = none) →
      divide_cell cfg s cid direction = some s) ∧
    ((valid_coords s.bounds (neighbor r.coords direction) = true ∧
        s.grid (neighbor r.coords direction) = none) →
      ∃ s2, divide_cell cfg s cid direction = some s2 ∧
        s2.grid (neighbor r.coords direction) = some (s.next_cell_id + 1) ∧
        s2.cells.length = s.cells.length + 1) := by
  constructor
  · intro hno
    unfold divide_cell
    rw [h]
    dsimp only
    have hcond : ¬ ((valid_coords s.bounds (neighbor r.coords direction) &&
        !(s.grid (neighbor r.coords direction)).isSome) = true) := by
      intro hc
      apply hno
      have hc2 : valid_coords s.bounds (neighbor r.coords direction) = true ∧
          (s.grid (neighbor r.coords direction)).isSome = false := by simpa using hc
      refine ⟨hc2.1, ?_⟩
      cases hg : s.grid (neighbor r.coords direction) with
      | none => rfl
      | some k =>
        have := hc2.2
        rw [hg] at this
        simp at this
    rw [if_neg hcond]
  · rintro ⟨hv, he⟩
    unfold divide_cell
    rw [h]
    dsimp only
    rw [if_pos (by rw [hv, he]; rfl)]
    unfold create_cell
    rw [if_pos (by rw [hv, he]; rfl)]
    refine ⟨_, rfl, ?_, ?_⟩
    · dsimp only
      rw [if_pos rfl]
    · dsimp only
      rw [List.length_append, List.length_singleton]

/-- A closed instance of C9: dividing the origin cell toward the
out-of-bounds neighbor in direction 3 changes nothing and raises
nothing. -/
theorem C9_witness : divide_cell cfg0 stA 1 3 = some stA :=
  (C9_divide_noop_or_create cfg0 stA 1 3
    { coords := (0, 0), alive := true, aux := [] } rfl).1 (by decide)

/-- C10 as stated is false: a run can return a negative value, because the
state-repeat return hands back the current fitness rather than the
running maximum; with an always-negative fitness and repeat detection on,
the cfgC10 run returns -1. -/
theorem C10_counterexample :
    (run cfgC10 st0).map (fun r => (r.fitness, r.reason)) =
      some (-1, StopReason.stateRepeat) ∧ ((-1 : Int) < 0) :=
  ⟨by decide, by decide⟩

/-- C10 amended: a run that ends by target fitness, inactivity or the step
limit never returns a negative value, because the running maximum starts
at 0; concretely a run with fitness -1 at every tick that ends by the step
limit returns 0. -/
theorem C10_nonnegative_unless_repeat :
    (∀ cfg s res, run cfg s = some res → res.reason ≠ StopReason.stateRepeat →
      0 ≤ res.fitness) ∧
    (run cfgC10b st0).map (fun r => (r.fitness, r.reason)) =
      some (0, StopReason.maxSteps) := by
  refine ⟨?_, by decide⟩
  intro cfg s res h hr
  obtain ⟨n, l, _, _, _, hfit⟩ := runAux_max_char cfg cfg.max_steps s 0 [] res h hr
  rw [hfit]
  exact le_foldl_max l 0

/-- A closed instance of the amended C10. -/
theorem C10_witness :
    0 ≤ ((run cfgC10b st0).getD ⟨0, StopReason.maxSteps, st0⟩).fitness :=
  C10_nonnegative_unless_repeat.1 cfgC10b st0
    ((run cfgC10b st0).getD ⟨0, StopReason.maxSteps, st0⟩) rfl (by decide)

end HexSim
